import Mathlib

/-! Modbus-over-TCP responder: request dispatcher and session framing.

Shallow embedding of `src/simple_socket/modbus/ModbusServer.cpp` (the request
dispatcher `processRequest`, the exception composer `sendException`, and one
iteration of the per-client session loop `ModbusServer::Impl::clientThread`),
together with the register store it operates on.

Frames are lists of natural numbers; a `std::vector<uint8_t>` element is a byte,
so every access goes through `byteAt`, which reduces mod 256.  16-bit machine
words (`uint16_t`) are naturals reduced mod 65536 at the points where the C++
types truncate.  A byte expression such as `(request[8] << 8) | request[9]` on
byte operands equals the exact value `256 * hi + lo` (no bits overlap), which is
how the big-endian field extractions are rendered here. -/

namespace ModbusServer

/-- Modelled from the spec: the register store type `HoldingRegister`
(its header `simple_socket/modbus/HoldingRegister.hpp` is not among the
sources).  Per the spec it is a fixed-size ordered sequence of 16-bit unsigned
words. -/
abbrev HoldingRegister : Type := List Nat

/-- Modelled from the spec: `size()` is the fixed number of registers. -/
def HoldingRegister.size (reg : HoldingRegister) : Nat := reg.length

/-- Modelled from the spec: `getUint16(index)` returns the 16-bit word stored
at `index` (callers check `index < size`). -/
def HoldingRegister.getUint16 (reg : HoldingRegister) (address : Nat) : Nat :=
  reg.getD address 0 % 65536

/-- Modelled from the spec: `setUint16(index, value)` stores a 16-bit word at
`index` (callers check `index < size`). -/
def HoldingRegister.setUint16 (reg : HoldingRegister) (address value : Nat) : HoldingRegister :=
  reg.set address (value % 65536)

/-- Element `i` of a frame held in a `std::vector<uint8_t>`: values are bytes. -/
def byteAt (request : List Nat) (i : Nat) : Nat := request.getD i 0 % 256

/-- Source: `startAddress = (request[headerSize + 2] << 8) | request[headerSize + 3]`
with `headerSize = 6`; on byte operands the shift-or is `256 * hi + lo`. -/
def startAddressOf (request : List Nat) : Nat :=
  256 * byteAt request 8 + byteAt request 9

/-- Source: `quantity = (request[headerSize + 4] << 8) | request[headerSize + 5]`
(the same two bytes give `valueToWrite` in the 0x06 branch). -/
def quantityOf (request : List Nat) : Nat :=
  256 * byteAt request 10 + byteAt request 11

/-- Source: `byteCount = request[headerSize + 6]` (0x10 branch). -/
def byteCountOf (request : List Nat) : Nat := byteAt request 12

/-- Source: `sendException` — a 3-byte reply `deviceAddress`, `functionCode | 0x80`,
`exceptionCode`, each stored into a `uint8_t`. -/
def sendException (deviceAddress functionCode exceptionCode : Nat) : List Nat :=
  [deviceAddress % 256, (functionCode ||| 0x80) % 256, exceptionCode % 256]

/-- Source: the 0x03 response loop
`for i in [0, quantity): push regValue >> 8; push regValue & 0xFF`
with `regValue = reg.getUint16(startAddress + i)`, produced in ascending order. -/
def readWords (reg : HoldingRegister) (startAddress : Nat) : Nat → List Nat
  | 0 => []
  | q + 1 => readWords reg startAddress q ++
      [reg.getUint16 (startAddress + q) / 256, reg.getUint16 (startAddress + q) % 256]

/-- Source: the 0x10 write loop
`for i in [0, quantity): reg.setUint16(startAddress + i, (request[13 + 2i] << 8) | request[14 + 2i])`
performed in ascending order of `i`. -/
def writeWords (request : List Nat) (startAddress : Nat) (reg : HoldingRegister) :
    Nat → HoldingRegister
  | 0 => reg
  | q + 1 => (writeWords request startAddress reg q).setUint16 (startAddress + q)
      (256 * byteAt request (13 + 2 * q) + byteAt request (14 + 2 * q))

/-- Source: `processRequest(conn, request, reg)`.  The result is the register
store after the call together with the byte sequence written to the connection
(each branch performs exactly one write).

Field extraction mirrors the source: `functionCode = request[7]`,
`startAddress = request[8..9]`, `quantity = request[10..11]` big-endian.
In the 0x03 branch `length` is a `uint16_t`, and `quantity * 2` is pushed into
a single `uint8_t` byte; in the 0x10 branch the response copies the first six
request bytes (MBAP header including the request's length field) and then
pushes `request[headerSize + 1]` — which is byte 7, the function code, although
the source comment labels it `Unit Identifier` — followed by the function code,
start address and quantity.  The default branch passes `request[0]` (not the
unit identifier `request[6]`) to `sendException`. -/
def processRequest (request : List Nat) (reg : HoldingRegister) :
    HoldingRegister × List Nat :=
  let functionCode := byteAt request 7
  let startAddress := startAddressOf request
  let quantity := quantityOf request
  if functionCode = 0x03 then
    if startAddress + quantity > reg.size then
      (reg, sendException (byteAt request 6) functionCode 0x02)
    else
      let length := (3 + quantity * 2) % 65536
      (reg, request.take 4 ++
        [length / 256, length % 256, byteAt request 6, functionCode, quantity * 2 % 256] ++
        readWords reg startAddress quantity)
  else if functionCode = 0x06 then
    if startAddress ≥ reg.size then
      (reg, sendException (byteAt request 6) functionCode 0x02)
    else
      let valueToWrite := 256 * byteAt request 10 + byteAt request 11
      (reg.setUint16 startAddress valueToWrite, request)
  else if functionCode = 0x10 then
    if startAddress + quantity > reg.size ∨ byteCountOf request ≠ quantity * 2 then
      (reg, sendException (byteAt request 6) functionCode 0x02)
    else
      (writeWords request startAddress reg quantity,
        request.take 6 ++
          [byteAt request 7, functionCode,
            startAddress / 256, startAddress % 256, quantity / 256, quantity % 256])
  else
    (reg, sendException (byteAt request 0) functionCode 0x01)

/-- Source: one iteration of `ModbusServer::Impl::clientThread`, on a fresh
`request` buffer, against the remaining bytes the peer will deliver before the
stream ends (`readExact(n)` succeeds iff at least `n` bytes remain; on failure
it leaves the bytes it managed to read in the buffer, ahead of the zero-fill
from `resize`).

The code checks the result of the 6-byte `readExact` for the MBAP prefix and
breaks on failure (`none`).  The result of the second, body `readExact` is
ignored, so the frame `mbap ++ body` is dispatched unconditionally; the result
records the frame handed to `processRequest` and that call's outcome. -/
def clientStep (stream : List Nat) (reg : HoldingRegister) :
    Option (List Nat × HoldingRegister × List Nat) :=
  if stream.length < 6 then none
  else
    let mbap := stream.take 6
    let rest := stream.drop 6
    let length := 256 * byteAt mbap 4 + byteAt mbap 5
    let request := rest.take length ++ List.replicate (length - rest.length) 0
    let frame := mbap ++ request
    some (frame, processRequest frame reg)

/-- Well-formed Write Single Register request frame for register `k`, value `V`
(transaction 0, protocol 0, length 6, unit 1), as in the round-trip scenario. -/
def writeSingleFrame (k V : Nat) : List Nat :=
  [0, 0, 0, 0, 0, 6, 1, 6, k / 256, k % 256, V / 256, V % 256]

/-- Well-formed Read Holding Registers request frame for `quantity` registers
starting at `k` (transaction 0, protocol 0, length 6, unit 1). -/
def readFrame (k quantity : Nat) : List Nat :=
  [0, 0, 0, 0, 0, 6, 1, 3, k / 256, k % 256, quantity / 256, quantity % 256]

/-! Helper lemmas: each dispatcher branch in closed form. -/

theorem byteAt_lt (request : List Nat) (i : Nat) : byteAt request i < 256 := by
  simp only [byteAt]; omega

theorem sendException_eq (d f e : Nat) (hd : d < 256) (hf : f < 256) (he : e < 256) :
    sendException d f e = [d, f ||| 128, e] := by
  have h1 : f ||| 128 < 256 := Nat.or_lt_two_pow (n := 8) (by omega) (by omega)
  simp only [sendException, Nat.mod_eq_of_lt hd, Nat.mod_eq_of_lt h1, Nat.mod_eq_of_lt he]

theorem processRequest_read_exc (request : List Nat) (reg : HoldingRegister)
    (hfc : byteAt request 7 = 3)
    (hr : reg.size < startAddressOf request + quantityOf request) :
    processRequest request reg = (reg, [byteAt request 6, 131, 2]) := by
  simp only [processRequest, hfc, if_true]
  rw [if_pos hr]
  rw [sendException_eq _ _ _ (byteAt_lt request 6) (by omega) (by omega)]
  rfl

theorem processRequest_write_exc (request : List Nat) (reg : HoldingRegister)
    (hfc : byteAt request 7 = 6)
    (hr : reg.size ≤ startAddressOf request) :
    processRequest request reg = (reg, [byteAt request 6, 134, 2]) := by
  simp only [processRequest, hfc]
  norm_num
  rw [if_pos hr]
  rw [sendException_eq _ _ _ (byteAt_lt request 6) (by omega) (by omega)]
  rfl

theorem processRequest_writeMulti_exc (request : List Nat) (reg : HoldingRegister)
    (hfc : byteAt request 7 = 16)
    (hr : reg.size < startAddressOf request + quantityOf request ∨
      byteCountOf request ≠ quantityOf request * 2) :
    processRequest request reg = (reg, [byteAt request 6, 144, 2]) := by
  simp only [processRequest, hfc]
  norm_num
  rw [if_pos hr]
  rw [sendException_eq _ _ _ (byteAt_lt request 6) (by omega) (by omega)]
  rfl

theorem processRequest_default (request : List Nat) (reg : HoldingRegister)
    (h3 : byteAt request 7 ≠ 3) (h6 : byteAt request 7 ≠ 6) (h16 : byteAt request 7 ≠ 16) :
    processRequest request reg = (reg, [byteAt request 0, byteAt request 7 ||| 128, 1]) := by
  simp only [processRequest]
  rw [if_neg h3, if_neg h6, if_neg h16]
  rw [sendException_eq _ _ _ (byteAt_lt request 0) (byteAt_lt request 7) (by omega)]

theorem processRequest_write_ok (request : List Nat) (reg : HoldingRegister)
    (hfc : byteAt request 7 = 6)
    (hlt : startAddressOf request < reg.size) :
    processRequest request reg =
      (reg.setUint16 (startAddressOf request) (256 * byteAt request 10 + byteAt request 11),
        request) := by
  simp only [processRequest, hfc, if_true]
  rw [if_neg (show ¬((6 : Nat) = 3) by decide), if_neg (Nat.not_le.mpr hlt)]

theorem processRequest_read_ok (request : List Nat) (reg : HoldingRegister)
    (hfc : byteAt request 7 = 3)
    (hr : startAddressOf request + quantityOf request ≤ reg.size) :
    processRequest request reg =
      (reg, request.take 4 ++
        [(3 + quantityOf request * 2) % 65536 / 256, (3 + quantityOf request * 2) % 65536 % 256,
          byteAt request 6, 3, quantityOf request * 2 % 256] ++
        readWords reg (startAddressOf request) (quantityOf request)) := by
  simp only [processRequest, hfc, if_true]
  rw [if_neg (Nat.not_lt.mpr hr)]

theorem readWords_length (reg : HoldingRegister) (startAddress : Nat) (q : Nat) :
    (readWords reg startAddress q).length = 2 * q := by
  induction q with
  | zero => rfl
  | succ q ih => simp [readWords, ih]; omega

theorem readWords_word (reg : HoldingRegister) (startAddress : Nat) (q i : Nat) (h : i < q) :
    256 * (readWords reg startAddress q).getD (2 * i) 0 +
      (readWords reg startAddress q).getD (2 * i + 1) 0 =
      reg.getUint16 (startAddress + i) := by
  induction q with
  | zero => omega
  | succ q ih =>
    have hl := readWords_length reg startAddress q
    rcases Nat.lt_or_ge i q with hi | hi
    · rw [readWords]
      rw [List.getD_eq_getElem?_getD, List.getElem?_append_left (by omega),
        ← List.getD_eq_getElem?_getD]
      rw [List.getD_eq_getElem?_getD ((readWords reg startAddress q) ++ _),
        List.getElem?_append_left (by omega), ← List.getD_eq_getElem?_getD]
      exact ih hi
    · have hiq : i = q := by omega
      subst hiq
      rw [readWords]
      rw [List.getD_eq_getElem?_getD, List.getElem?_append_right (by omega)]
      rw [List.getD_eq_getElem?_getD, List.getElem?_append_right (by omega)]
      have h0 : 2 * i - (readWords reg startAddress i).length = 0 := by omega
      have h1 : 2 * i + 1 - (readWords reg startAddress i).length = 1 := by omega
      rw [h0, h1]
      simp
      omega

/-! Claim theorems. -/

/-- Claim C1: for a validated 0x10 (Write Multiple Registers) request the claim
states that the dispatcher writes all values and then answers with
`unitId, 0x10, startAddress, quantity` after the MBAP prefix, with length field 6.
The code does perform the writes (store of 10 zeros gets 0xBEEF at address 2),
but its response carries the function code 0x10 (= 16) in the unit-identifier
position — the request's unit identifier is 0x11 (= 17) — and echoes the
request's length field 9 instead of 6.  This theorem evaluates the dispatcher at
that failing input and records both divergences. -/
theorem c1_write_multiple_response_bug :
    processRequest [0, 1, 0, 0, 0, 9, 17, 16, 0, 2, 0, 1, 2, 190, 239] (List.replicate 10 0) =
      ([0, 0, 48879, 0, 0, 0, 0, 0, 0, 0], [0, 1, 0, 0, 0, 9, 16, 16, 0, 2, 0, 1]) ∧
    byteAt [0, 1, 0, 0, 0, 9, 17, 16, 0, 2, 0, 1, 2, 190, 239] 6 = 17 ∧
    (processRequest [0, 1, 0, 0, 0, 9, 17, 16, 0, 2, 0, 1, 2, 190, 239]
      (List.replicate 10 0)).2.getD 6 0 ≠ 17 ∧
    256 * (processRequest [0, 1, 0, 0, 0, 9, 17, 16, 0, 2, 0, 1, 2, 190, 239]
        (List.replicate 10 0)).2.getD 4 0 +
      (processRequest [0, 1, 0, 0, 0, 9, 17, 16, 0, 2, 0, 1, 2, 190, 239]
        (List.replicate 10 0)).2.getD 5 0 ≠ 6 := by
  decide

/-- Claim C2: the claim states that if either exact read fails the session
treats it as end-of-stream and never dispatches the partial frame.  On the
stream `[0,0,0,0,0,2]` the 6-byte MBAP read succeeds with declared body length
2, the body read fails (0 bytes remain, fewer than 2), yet the session step
still dispatches the zero-padded partial frame `[0,0,0,0,0,2,0,0]` to the
dispatcher instead of signalling end-of-stream (`none`): the code ignores the
boolean returned by the second `readExact`. -/
theorem c2_partial_frame_dispatched :
    6 ≤ ([0, 0, 0, 0, 0, 2] : List Nat).length ∧
    (([0, 0, 0, 0, 0, 2] : List Nat).drop 6).length <
      256 * byteAt [0, 0, 0, 0, 0, 2] 4 + byteAt [0, 0, 0, 0, 0, 2] 5 ∧
    clientStep [0, 0, 0, 0, 0, 2] [] = some ([0, 0, 0, 0, 0, 2, 0, 0], [], [0, 128, 1]) := by
  decide

/-- Claim C3: the claim states that every exception frame starts with the
request's unit identifier (frame byte 6).  For the unsupported function code
0x05 the dispatcher passes `request[0]` — the transaction-identifier high byte,
here 170 — to `sendException`, so the exception frame `[170, 133, 1]` does not
start with the unit identifier 7. -/
theorem c3_exception_unit_byte_bug :
    processRequest [170, 1, 0, 0, 0, 2, 7, 5] [] = ([], [170, 133, 1]) ∧
    byteAt [170, 1, 0, 0, 0, 2, 7, 5] 6 = 7 ∧
    (processRequest [170, 1, 0, 0, 0, 2, 7, 5] []).2.getD 0 0 ≠
      byteAt [170, 1, 0, 0, 0, 2, 7, 5] 6 := by
  decide

/-- Claim C4: when validation fails the dispatcher sends exception code 0x02
and leaves the store unchanged — for 0x03 when `startAddress + quantity` exceeds
the store size, for 0x06 when `startAddress ≥ size`, and for 0x10 when the range
is exceeded or `byteCount ≠ quantity * 2`.  Each conjunct gives the full
3-byte exception frame (unit id, function code with bit 0x80 set, 0x02) and the
unchanged store. -/
theorem c4_validation_failure (request : List Nat) (reg : HoldingRegister) :
    (byteAt request 7 = 0x03 →
      HoldingRegister.size reg < startAddressOf request + quantityOf request →
      processRequest request reg = (reg, [byteAt request 6, 0x83, 0x02])) ∧
    (byteAt request 7 = 0x06 →
      HoldingRegister.size reg ≤ startAddressOf request →
      processRequest request reg = (reg, [byteAt request 6, 0x86, 0x02])) ∧
    (byteAt request 7 = 0x10 →
      (HoldingRegister.size reg < startAddressOf request + quantityOf request ∨
        byteCountOf request ≠ quantityOf request * 2) →
      processRequest request reg = (reg, [byteAt request 6, 0x90, 0x02])) :=
  ⟨fun h1 h2 => processRequest_read_exc request reg h1 h2,
   fun h1 h2 => processRequest_write_exc request reg h1 h2,
   fun h1 h2 => processRequest_writeMulti_exc request reg h1 h2⟩

/-- Witness for C4 at concrete failing requests against a 3-register store. -/
theorem c4_validation_failure_witness :
    processRequest [0, 0, 0, 0, 0, 6, 9, 3, 0, 5, 0, 1] [0, 0, 0] = ([0, 0, 0], [9, 0x83, 0x02]) ∧
    processRequest [0, 0, 0, 0, 0, 6, 9, 6, 0, 5, 0, 1] [0, 0, 0] = ([0, 0, 0], [9, 0x86, 0x02]) ∧
    processRequest [0, 0, 0, 0, 0, 9, 9, 16, 0, 5, 0, 1, 2, 0, 7] [0, 0, 0] =
      ([0, 0, 0], [9, 0x90, 0x02]) :=
  ⟨by have h := (c4_validation_failure [0, 0, 0, 0, 0, 6, 9, 3, 0, 5, 0, 1] [0, 0, 0]).1
        (by decide) (by decide)
      exact h.trans (by decide),
   by have h := (c4_validation_failure [0, 0, 0, 0, 0, 6, 9, 6, 0, 5, 0, 1] [0, 0, 0]).2.1
        (by decide) (by decide)
      exact h.trans (by decide),
   by have h := (c4_validation_failure [0, 0, 0, 0, 0, 9, 9, 16, 0, 5, 0, 1, 2, 0, 7] [0, 0, 0]).2.2
        (by decide) (Or.inl (by decide))
      exact h.trans (by decide)⟩

/-- Claim C5 (amended): for a 0x03 request with `startAddress + quantity ≤ size`
and `quantity ≤ 127`, the store is unchanged and the response is transaction and
protocol identifiers (the request's first four bytes) followed by the length
field `3 + quantity * 2` (two bytes, big-endian), the unit identifier, 0x03, the
byte count `quantity * 2`, and `quantity` big-endian data words, word `i` being
`store.get(startAddress + i)`.  The amendment is the bound `quantity ≤ 127`:
the code pushes `quantity * 2` into a single byte, which truncates mod 256 for
larger quantities (see the counterexample), and the 16-bit length field would
likewise wrap mod 65536. -/
theorem c5_read_response (request : List Nat) (reg : HoldingRegister)
    (hfc : byteAt request 7 = 0x03) (h4 : 4 ≤ request.length)
    (hq : quantityOf request ≤ 127)
    (hr : startAddressOf request + quantityOf request ≤ HoldingRegister.size reg) :
    (processRequest request reg).1 = reg ∧
    (processRequest request reg).2.length = 9 + 2 * quantityOf request ∧
    (processRequest request reg).2.take 4 = request.take 4 ∧
    256 * (processRequest request reg).2.getD 4 0 + (processRequest request reg).2.getD 5 0 =
      3 + quantityOf request * 2 ∧
    (processRequest request reg).2.getD 6 0 = byteAt request 6 ∧
    (processRequest request reg).2.getD 7 0 = 0x03 ∧
    (processRequest request reg).2.getD 8 0 = quantityOf request * 2 ∧
    ∀ i, i < quantityOf request →
      256 * (processRequest request reg).2.getD (9 + 2 * i) 0 +
        (processRequest request reg).2.getD (9 + 2 * i + 1) 0 =
        reg.getUint16 (startAddressOf request + i) := by
  simp only [HoldingRegister.size] at hr
  rw [processRequest_read_ok request reg hfc hr]
  have hT : (request.take 4).length = 4 := by
    rw [List.length_take]; omega
  have hW := readWords_length reg (startAddressOf request) (quantityOf request)
  have hlen : (3 + quantityOf request * 2) % 65536 = 3 + quantityOf request * 2 :=
    Nat.mod_eq_of_lt (by omega)
  have hM : (request.take 4 ++
      [(3 + quantityOf request * 2) % 65536 / 256, (3 + quantityOf request * 2) % 65536 % 256,
        byteAt request 6, 3, quantityOf request * 2 % 256]).length = 9 := by
    simp [hT]
  refine ⟨rfl, ?_, ?_, ?_, ?_, ?_, ?_, ?_⟩
  · simp [hT, hW]; omega
  · rw [List.append_assoc, List.take_left' hT]
  · rw [List.getD_eq_getElem?_getD, List.getElem?_append_left (by rw [hM]; omega),
      List.getElem?_append_right (by omega), List.getD_eq_getElem?_getD,
      List.getElem?_append_left (by rw [hM]; omega),
      List.getElem?_append_right (by omega), hT]
    simp
    omega
  · rw [List.getD_eq_getElem?_getD, List.getElem?_append_left (by rw [hM]; omega),
      List.getElem?_append_right (by omega), hT]
    simp
  · rw [List.getD_eq_getElem?_getD, List.getElem?_append_left (by rw [hM]; omega),
      List.getElem?_append_right (by omega), hT]
    simp
  · rw [List.getD_eq_getElem?_getD, List.getElem?_append_left (by rw [hM]; omega),
      List.getElem?_append_right (by omega), hT]
    simp
    omega
  · intro i hi
    rw [List.getD_eq_getElem?_getD, List.getElem?_append_right (by rw [hM]; omega),
      List.getD_eq_getElem?_getD, List.getElem?_append_right (by rw [hM]; omega), hM]
    have e0 : 9 + 2 * i - 9 = 2 * i := by omega
    have e1 : 9 + 2 * i + 1 - 9 = 2 * i + 1 := by omega
    rw [e0, e1, ← List.getD_eq_getElem?_getD, ← List.getD_eq_getElem?_getD]
    exact readWords_word reg (startAddressOf request) (quantityOf request) i hi

/-- Witness for C5 (amended): read 2 registers at address 1 from the store
`[5, 0x1234, 0x5678, 9]`; the first data word is 0x1234 (= 4660). -/
theorem c5_read_response_witness :
    (processRequest [0, 0, 0, 0, 0, 6, 1, 3, 0, 1, 0, 2] [5, 4660, 22136, 9]).1 =
      [5, 4660, 22136, 9] ∧
    (processRequest [0, 0, 0, 0, 0, 6, 1, 3, 0, 1, 0, 2] [5, 4660, 22136, 9]).2.length = 13 ∧
    (processRequest [0, 0, 0, 0, 0, 6, 1, 3, 0, 1, 0, 2] [5, 4660, 22136, 9]).2.getD 8 0 = 4 ∧
    256 * (processRequest [0, 0, 0, 0, 0, 6, 1, 3, 0, 1, 0, 2] [5, 4660, 22136, 9]).2.getD 9 0 +
      (processRequest [0, 0, 0, 0, 0, 6, 1, 3, 0, 1, 0, 2] [5, 4660, 22136, 9]).2.getD 10 0 =
      4660 := by
  have h := c5_read_response [0, 0, 0, 0, 0, 6, 1, 3, 0, 1, 0, 2] [5, 4660, 22136, 9]
    (by decide) (by decide) (by decide) (by decide)
  exact ⟨h.1, h.2.1.trans (by decide), h.2.2.2.2.2.2.1.trans (by decide),
    (h.2.2.2.2.2.2.2 0 (by decide)).trans (by decide)⟩

set_option maxRecDepth 10000 in
/-- Counterexample to C5 as stated: reading 128 registers from a 128-register
store passes validation, and `quantity * 2 = 256`, but the byte-count byte of
the response is `256 % 256 = 0`, not `quantity * 2`. -/
theorem c5_bytecount_counterexample :
    byteAt [0, 0, 0, 0, 0, 6, 1, 3, 0, 0, 0, 128] 7 = 3 ∧
    quantityOf [0, 0, 0, 0, 0, 6, 1, 3, 0, 0, 0, 128] = 128 ∧
    startAddressOf [0, 0, 0, 0, 0, 6, 1, 3, 0, 0, 0, 128] +
      quantityOf [0, 0, 0, 0, 0, 6, 1, 3, 0, 0, 0, 128] ≤
      HoldingRegister.size (List.replicate 128 0) ∧
    (processRequest [0, 0, 0, 0, 0, 6, 1, 3, 0, 0, 0, 128] (List.replicate 128 0)).2.getD 8 0 = 0 ∧
    (processRequest [0, 0, 0, 0, 0, 6, 1, 3, 0, 0, 0, 128] (List.replicate 128 0)).2.getD 8 0 ≠
      quantityOf [0, 0, 0, 0, 0, 6, 1, 3, 0, 0, 0, 128] * 2 := by
  decide

/-- Claim C6: for a 0x06 (Write Single Register) request with
`startAddress < size`, after dispatch the store at `startAddress` holds the
16-bit value taken from frame bytes 10..11, every other register is unchanged,
and the response is byte-for-byte the request frame. -/
theorem c6_write_single (request : List Nat) (reg : HoldingRegister)
    (hfc : byteAt request 7 = 0x06)
    (hlt : startAddressOf request < HoldingRegister.size reg) :
    (processRequest request reg).2 = request ∧
    ((processRequest request reg).1).getD (startAddressOf request) 0 =
      256 * byteAt request 10 + byteAt request 11 ∧
    ∀ j, j ≠ startAddressOf request →
      ((processRequest request reg).1).getD j 0 = reg.getD j 0 := by
  rw [processRequest_write_ok request reg hfc hlt]
  have hv : 256 * byteAt request 10 + byteAt request 11 < 65536 := by
    have h10 := byteAt_lt request 10
    have h11 := byteAt_lt request 11
    omega
  simp only [HoldingRegister.size] at hlt
  refine ⟨rfl, ?_, ?_⟩
  · simp only [HoldingRegister.setUint16, Nat.mod_eq_of_lt hv]
    simp [List.getD_eq_getElem?_getD, List.getElem?_set_self hlt]
  · intro j hj
    simp only [HoldingRegister.setUint16]
    simp [List.getD_eq_getElem?_getD, List.getElem?_set_ne (Ne.symm hj)]

/-- Witness for C6: write 0x1234 (= 4660) to register 2 of a 5-register store;
register 0 stays 0 and the response echoes the request. -/
theorem c6_write_single_witness :
    (processRequest [0, 0, 0, 0, 0, 6, 1, 6, 0, 2, 18, 52] [0, 0, 0, 0, 0]).2 =
      [0, 0, 0, 0, 0, 6, 1, 6, 0, 2, 18, 52] ∧
    ((processRequest [0, 0, 0, 0, 0, 6, 1, 6, 0, 2, 18, 52] [0, 0, 0, 0, 0]).1).getD
      (startAddressOf [0, 0, 0, 0, 0, 6, 1, 6, 0, 2, 18, 52]) 0 = 4660 ∧
    ((processRequest [0, 0, 0, 0, 0, 6, 1, 6, 0, 2, 18, 52] [0, 0, 0, 0, 0]).1).getD 0 0 = 0 := by
  have h := c6_write_single [0, 0, 0, 0, 0, 6, 1, 6, 0, 2, 18, 52] [0, 0, 0, 0, 0]
    (by decide) (by decide)
  exact ⟨h.1, h.2.1.trans (by decide), (h.2.2 0 (by decide)).trans (by decide)⟩

/-- Claim C7: for a function code other than 0x03, 0x06 and 0x10 the dispatcher
leaves the store unchanged and replies with a 3-byte frame whose function-code
byte is the request's function code with bit 0x80 set, followed by exception
code 0x01.  (The first byte is `request[0]`, see C3.) -/
theorem c7_illegal_function (request : List Nat) (reg : HoldingRegister)
    (h3 : byteAt request 7 ≠ 0x03) (h6 : byteAt request 7 ≠ 0x06)
    (h16 : byteAt request 7 ≠ 0x10) :
    processRequest request reg = (reg, [byteAt request 0, byteAt request 7 ||| 0x80, 0x01]) :=
  processRequest_default request reg h3 h6 h16

/-- Witness for C7 at function code 0x05: `0x05 ||| 0x80 = 133`. -/
theorem c7_illegal_function_witness :
    processRequest [170, 1, 0, 0, 0, 2, 7, 5] [] = ([], [170, 133, 1]) := by
  have h := c7_illegal_function [170, 1, 0, 0, 0, 2, 7, 5] [] (by decide) (by decide) (by decide)
  exact h.trans (by decide)

/-- Claim C8: round-trip — dispatching a valid 0x06 request writing `V` to
register `k` and then a 0x03 request reading one register at `k` yields a read
response whose data word (response bytes 9 and 10, big-endian) equals `V`. -/
theorem c8_roundtrip (reg : HoldingRegister) (k V : Nat)
    (hk : k < HoldingRegister.size reg) (hk16 : k < 65536) (hV : V < 65536) :
    256 * ((processRequest (readFrame k 1)
        ((processRequest (writeSingleFrame k V) reg).1)).2).getD 9 0 +
      ((processRequest (readFrame k 1)
        ((processRequest (writeSingleFrame k V) reg).1)).2).getD 10 0 = V := by
  simp only [HoldingRegister.size] at hk
  have hb7w : byteAt (writeSingleFrame k V) 7 = 6 := by
    simp [writeSingleFrame, byteAt]
  have hsaw : startAddressOf (writeSingleFrame k V) = k := by
    simp only [writeSingleFrame, startAddressOf, byteAt, List.getD_cons_zero, List.getD_cons_succ]
    omega
  have hvw : 256 * byteAt (writeSingleFrame k V) 10 + byteAt (writeSingleFrame k V) 11 = V := by
    simp only [writeSingleFrame, byteAt, List.getD_cons_zero, List.getD_cons_succ]
    omega
  rw [processRequest_write_ok (writeSingleFrame k V) reg hb7w
    (by simp only [HoldingRegister.size]; omega)]
  rw [hsaw, hvw]
  have hb7r : byteAt (readFrame k 1) 7 = 3 := by
    simp [readFrame, byteAt]
  have hsar : startAddressOf (readFrame k 1) = k := by
    simp only [readFrame, startAddressOf, byteAt, List.getD_cons_zero, List.getD_cons_succ]
    omega
  have hqr : quantityOf (readFrame k 1) = 1 := by
    simp only [readFrame, quantityOf, byteAt, List.getD_cons_zero, List.getD_cons_succ]
  have hlen1 : (HoldingRegister.setUint16 reg k V).length = reg.length := by
    simp [HoldingRegister.setUint16]
  rw [processRequest_read_ok (readFrame k 1) (HoldingRegister.setUint16 reg k V)
    (by exact hb7r)
    (by simp only [HoldingRegister.size, hsar, hqr, hlen1]; omega)]
  rw [hsar, hqr]
  have hg : HoldingRegister.getUint16 (HoldingRegister.setUint16 reg k V) (k + 0) = V := by
    simp only [HoldingRegister.getUint16, HoldingRegister.setUint16, Nat.add_zero]
    rw [List.getD_eq_getElem?_getD, List.getElem?_set_self hk]
    simp
    omega
  have hw : readWords (HoldingRegister.setUint16 reg k V) k 1 = [V / 256, V % 256] := by
    have h01 : (1 : Nat) = 0 + 1 := rfl
    rw [h01, readWords, readWords, hg]
    simp
  rw [hw]
  simp only [readFrame, quantityOf, byteAt]
  simp [List.getD_eq_getElem?_getD]
  omega

/-- Witness for C8: write 4660 to register 2 of a 3-register store, read it back. -/
theorem c8_roundtrip_witness :
    256 * ((processRequest (readFrame 2 1)
        ((processRequest (writeSingleFrame 2 4660) [0, 0, 0]).1)).2).getD 9 0 +
      ((processRequest (readFrame 2 1)
        ((processRequest (writeSingleFrame 2 4660) [0, 0, 0]).1)).2).getD 10 0 = 4660 :=
  c8_roundtrip [0, 0, 0] 2 4660 (by decide) (by decide) (by decide)

/-- Claim C9: the range check for 0x03 and 0x10 works in exact integer
arithmetic — the extracted 16-bit fields sum to at most 131070, so the sum
never wraps modulo 2^16, and every request with
`startAddress + quantity > size` (exact arithmetic) is rejected with exception
code 0x02 and an unchanged store. -/
theorem c9_exact_range_check (request : List Nat) (reg : HoldingRegister)
    (hfc : byteAt request 7 = 0x03 ∨ byteAt request 7 = 0x10)
    (hr : HoldingRegister.size reg < startAddressOf request + quantityOf request) :
    startAddressOf request + quantityOf request ≤ 131070 ∧
    processRequest request reg = (reg, [byteAt request 6, byteAt request 7 ||| 0x80, 0x02]) := by
  constructor
  · have h8 := byteAt_lt request 8
    have h9 := byteAt_lt request 9
    have h10 := byteAt_lt request 10
    have h11 := byteAt_lt request 11
    simp only [startAddressOf, quantityOf]
    omega
  · rcases hfc with h | h
    · rw [processRequest_read_exc request reg h hr, h]
      rfl
    · rw [processRequest_writeMulti_exc request reg h (Or.inl hr), h]
      rfl

/-- Witness for C9: address 0xFFFF, quantity 0xFFFF against a 3-register store;
the exact sum 131070 exceeds the store size and the request is rejected. -/
theorem c9_exact_range_check_witness :
    startAddressOf [0, 0, 0, 0, 0, 6, 9, 3, 255, 255, 255, 255] +
      quantityOf [0, 0, 0, 0, 0, 6, 9, 3, 255, 255, 255, 255] ≤ 131070 ∧
    processRequest [0, 0, 0, 0, 0, 6, 9, 3, 255, 255, 255, 255] [0, 0, 0] =
      ([0, 0, 0], [9, 131, 2]) := by
  have h := c9_exact_range_check [0, 0, 0, 0, 0, 6, 9, 3, 255, 255, 255, 255] [0, 0, 0]
    (Or.inl (by decide)) (by decide)
  exact ⟨h.1, h.2.trans (by decide)⟩

end ModbusServer
